import Mathlib

/-!
Verification of the lando event/body codec layer.

Shallow embedding of the repository's core:
  * `src/body.rs`    — the three-variant `Body` type and its serialization
  * `src/request.rs` — `GatewayRequest` envelope decoding (`deserialize_headers`,
    `nullable_default`, the `StrMap` deserializer) and the request assembler
    (`From<GatewayRequest> for HttpRequest<Body>`)
  * `src/ext.rs`     — `RequestExt::payload` and the response encoder
    (`From<HttpResponse<T>> for GatewayResponse`)
  * `src/response.rs` — `GatewayResponse` and its field-omission serialization

JSON values are modelled by an inductive `Json`; byte strings are `List Nat`
(each entry < 256 where it matters); header collections and hash maps are
association lists.  The external crates the code calls (`serde_json`,
`http`, `base64`) are modelled at the exact call sites the code uses:
serde's derive semantics for field lookup, `http`'s header name/value
validity and `to_str`, and the standard base64 alphabet with padding.
-/

/-- JSON abstract syntax, standing for `serde_json::Value`. -/
inductive Json : Type where
  | null : Json
  | bool (b : Bool) : Json
  | num (n : Int) : Json
  | str (s : String) : Json
  | arr (elems : List Json) : Json
  | obj (fields : List (String × Json)) : Json

/-- Look a field up in a JSON object by exact (case-sensitive) name, the way
serde's derive visitor consumes map entries keyed by the declared field name. -/
def jsonLookup (j : Json) (key : String) : Option Json :=
  match j with
  | .obj fields => (fields.find? (fun p => p.1 = key)).map Prod.snd
  | _ => none

/-- Valid characters of an `http::header::HeaderName`: the token characters of
the http crate's parse table (letters are accepted and normalized to
lowercase). -/
def headerNameChar (c : Char) : Bool :=
  (97 ≤ c.toNat && c.toNat ≤ 122) || (65 ≤ c.toNat && c.toNat ≤ 90) ||
  (48 ≤ c.toNat && c.toNat ≤ 57) ||
  c = '!' || c = '#' || c = '$' || c = '%' || c = '&' || c = '\x27' ||
  c = '*' || c = '+' || c = '-' || c = '.' || c = '^' || c = '_' ||
  c = '\x60' || c = '|' || c = '~'

/-- ASCII lowercase of one character. -/
def asciiLower (c : Char) : Char :=
  if 65 ≤ c.toNat && c.toNat ≤ 90 then Char.ofNat (c.toNat + 32) else c

/-- ASCII lowercase of a string (header names are ASCII tokens, so this is
exactly the lowercasing `HeaderName` parsing performs). -/
def lowerAscii (s : String) : String := String.mk (s.data.map asciiLower)

/-- Model of `key.parse::<http::header::HeaderName>()`: succeeds on a nonempty
token of valid characters and yields the lowercased name. -/
def headerNameParse (s : String) : Option String :=
  if s ≠ "" && s.data.all headerNameChar then some (lowerAscii s) else none

/-- Valid bytes of an `http::header::HeaderValue` per `HeaderValue::from_shared`:
byte 9 (tab) or any byte at least 32 other than 127.  Stated on the characters
of the string: a character at 128 or above only contributes UTF-8 bytes that
are themselves at least 128, hence valid. -/
def headerValueChar (c : Char) : Bool :=
  c.toNat = 9 || (32 ≤ c.toNat && c.toNat ≠ 127)

/-- Model of `HeaderValue::from_shared` validity for a decoded JSON string. -/
def headerValueValid (s : String) : Bool :=
  s.data.all headerValueChar

/-- Characters accepted by `HeaderValue::to_str` (`is_visible_ascii`):
visible ASCII plus space and tab.  Characters at 128 and above encode to
bytes at 127 or above and make `to_str` fail. -/
def visibleAsciiChar (c : Char) : Bool :=
  (32 ≤ c.toNat && c.toNat < 127) || c.toNat = 9

/-- Model of `HeaderValue::to_str`: the string itself when every character is
visible ASCII, otherwise an error (`none`). -/
def headerToStr (s : String) : Option String :=
  if s.data.all visibleAsciiChar then some s else none

/-- Header collections (`http::HeaderMap<HeaderValue>`) are association lists
whose keys are lowercased header names; `append` keeps every entry. -/
def HeaderList : Type := List (String × String)

/-- Model of `HeaderMap::get`: the first value stored under the name. -/
def getHeader (hs : List (String × String)) (name : String) : Option String :=
  (hs.find? (fun p => p.1 = name)).map Prod.snd

/-- Loop of `deserialize_headers`' visitor (`src/request.rs` lines 167-180):
each entry's value must deserialize as a string, the key must parse as a
`HeaderName`, the value must pass `HeaderValue::from_shared`, and valid
entries are appended in order. -/
def headersFold : List (String × Json) → List (String × String) →
    Except String (List (String × String))
  | [], acc => .ok acc
  | (k, v) :: rest, acc =>
    match v with
    | .str s =>
      match headerNameParse k with
      | some name =>
        if headerValueValid s then headersFold rest (acc ++ [(name, s)])
        else .error "invalid header value"
      | none => .error "invalid header name"
    | _ => .error "invalid type: header value is not a string"

/-- Model of `deserialize_headers` (`src/request.rs` lines 154-186): requires a
JSON object and folds the visitor loop over its entries. -/
def deserialize_headers (j : Json) : Except String (List (String × String)) :=
  match j with
  | .obj fields => headersFold fields []
  | _ => .error "invalid type: expected a HeaderMap"

/-- Model of `HashMap::insert`: replaces any previous binding of the key. -/
def mapInsert (m : List (String × String)) (k v : String) :
    List (String × String) :=
  (m.filter (fun p => p.1 ≠ k)) ++ [(k, v)]

/-- Loop of the `StrMap` deserializer's visitor (`src/request.rs` lines
105-114): every entry must be string-keyed and string-valued and is inserted
into the underlying `HashMap`. -/
def strMapFold : List (String × Json) → List (String × String) →
    Except String (List (String × String))
  | [], acc => .ok acc
  | (k, v) :: rest, acc =>
    match v with
    | .str s => strMapFold rest (mapInsert acc k s)
    | _ => .error "invalid type: StrMap value is not a string"

/-- Model of `Deserialize for StrMap` (`src/request.rs` lines 91-119):
`deserialize_map` demands a JSON object. -/
def decodeStrMap (j : Json) : Except String (List (String × String)) :=
  match j with
  | .obj fields => strMapFold fields []
  | _ => .error "invalid type: expected a StrMap"

/-- Decoding of one of the three parameter-map fields of `GatewayRequest`:
serde's derive errors on a missing field (the fields carry
`deserialize_with = "nullable_default"` but no `default`), and
`nullable_default` (`src/request.rs` lines 190-197) maps a present JSON
`null` to the default empty map and otherwise runs the `StrMap` deserializer. -/
def nullable_default (field : Option Json) (name : String) :
    Except String (List (String × String)) :=
  match field with
  | none => .error ("missing field " ++ name)
  | some .null => .ok []
  | some j => decodeStrMap j

/-- Identity record (`src/request.rs` lines 140-152). -/
structure Identity where
  source_ip : String
  cognito_identity_id : Option String
  cognito_identity_pool_id : Option String
  cognito_authentication_provider : Option String
  cognito_authentication_type : Option String
  account_id : Option String
  caller : Option String
  api_key : Option String
  user : Option String
  user_agent : Option String
  user_arn : Option String
deriving Repr, DecidableEq

/-- RequestContext record (`src/request.rs` lines 124-135). -/
structure RequestContext where
  account_id : String
  resource_id : String
  stage : String
  request_id : String
  resource_path : String
  http_method : String
  api_id : String
  identity : Identity
deriving Repr, DecidableEq

/-- Default `Identity` (all strings empty, options `None`), as produced by the
derived `Default` implementation. -/
def emptyIdentity : Identity :=
  ⟨"", none, none, none, none, none, none, none, none, none, none⟩

/-- Default `RequestContext` from the derived `Default` implementation. -/
def emptyRequestContext : RequestContext :=
  ⟨"", "", "", "", "", "", "", emptyIdentity⟩

/-- Required string field of a serde struct: missing or non-string fails. -/
def getStrField (j : Json) (key : String) : Except String String :=
  match jsonLookup j key with
  | some (.str s) => .ok s
  | some _ => .error ("invalid type: " ++ key)
  | none => .error ("missing field " ++ key)

/-- Optional string field of a serde struct: a missing field or JSON `null`
yields `none`, a string yields `some`, anything else fails. -/
def getOptStrField (j : Json) (key : String) : Except String (Option String) :=
  match jsonLookup j key with
  | some (.str s) => .ok (some s)
  | some .null => .ok none
  | some _ => .error ("invalid type: " ++ key)
  | none => .ok none

/-- Serde-derived decoding of `Identity` (camelCase field names). -/
def decodeIdentity (j : Json) : Except String Identity :=
  match j with
  | .obj _ => do
    let sourceIp ← getStrField j "sourceIp"
    let cii ← getOptStrField j "cognitoIdentityId"
    let cipi ← getOptStrField j "cognitoIdentityPoolId"
    let cap ← getOptStrField j "cognitoAuthenticationProvider"
    let cat ← getOptStrField j "cognitoAuthenticationType"
    let acct ← getOptStrField j "accountId"
    let caller ← getOptStrField j "caller"
    let apiKey ← getOptStrField j "apiKey"
    let u ← getOptStrField j "user"
    let ua ← getOptStrField j "userAgent"
    let uarn ← getOptStrField j "userArn"
    .ok ⟨sourceIp, cii, cipi, cap, cat, acct, caller, apiKey, u, ua, uarn⟩
  | _ => .error "invalid type: expected struct Identity"

/-- Required nested `identity` field of a `RequestContext`. -/
def getIdentityField (j : Json) : Except String Identity :=
  match jsonLookup j "identity" with
  | some ij => decodeIdentity ij
  | none => .error "missing field identity"

/-- Serde-derived decoding of `RequestContext` (camelCase field names; every
field is required, `identity` nests `Identity`). -/
def decodeRequestContext (j : Json) : Except String RequestContext :=
  match j with
  | .obj _ => do
    let accountId ← getStrField j "accountId"
    let resourceId ← getStrField j "resourceId"
    let stage ← getStrField j "stage"
    let requestId ← getStrField j "requestId"
    let resourcePath ← getStrField j "resourcePath"
    let httpMethod ← getStrField j "httpMethod"
    let apiId ← getStrField j "apiId"
    let identity ← getIdentityField j
    .ok ⟨accountId, resourceId, stage, requestId, resourcePath, httpMethod,
         apiId, identity⟩
  | _ => .error "invalid type: expected struct RequestContext"

/-- Decoded gateway envelope (`GatewayRequest`, `src/request.rs` lines 26-42). -/
structure GatewayRequest where
  path : String
  http_method : String
  headers : List (String × String)
  query_string_parameters : List (String × String)
  path_parameters : List (String × String)
  stage_variables : List (String × String)
  body : Option String
  is_base64_encoded : Bool
  request_context : RequestContext
deriving Repr, DecidableEq

/-- Required `headers` field of a `GatewayRequest`, decoded with
`deserialize_headers`. -/
def getHeadersField (j : Json) : Except String (List (String × String)) :=
  match jsonLookup j "headers" with
  | some hj => deserialize_headers hj
  | none => .error "missing field headers"

/-- The `isBase64Encoded` field: `#[serde(default)]` makes a missing field
`false`; a present field must be a JSON boolean. -/
def getBase64Flag (j : Json) : Except String Bool :=
  match jsonLookup j "isBase64Encoded" with
  | none => .ok false
  | some (.bool b) => .ok b
  | some _ => .error "invalid type: isBase64Encoded"

/-- Required nested `requestContext` field of a `GatewayRequest`. -/
def getRequestContextField (j : Json) : Except String RequestContext :=
  match jsonLookup j "requestContext" with
  | some cj => decodeRequestContext cj
  | none => .error "missing field requestContext"

/-- Serde-derived decoding of `GatewayRequest` from a JSON event: field names
are the exact camelCase wire names; `headers` uses `deserialize_headers`; the
three parameter maps use `nullable_default`; `body` is an optional string;
`isBase64Encoded` carries `#[serde(default)]` and defaults to `false`;
`requestContext` is required. -/
def decodeGatewayRequest (j : Json) : Except String GatewayRequest :=
  match j with
  | .obj _ => do
    let path ← getStrField j "path"
    let method ← getStrField j "httpMethod"
    let headers ← getHeadersField j
    let qs ← nullable_default (jsonLookup j "queryStringParameters")
      "queryStringParameters"
    let pp ← nullable_default (jsonLookup j "pathParameters") "pathParameters"
    let sv ← nullable_default (jsonLookup j "stageVariables") "stageVariables"
    let body ← getOptStrField j "body"
    let b64 ← getBase64Flag j
    let rc ← getRequestContextField j
    .ok ⟨path, method, headers, qs, pp, sv, body, b64, rc⟩
  | _ => .error "invalid type: expected struct GatewayRequest"

/-- Continuation byte of a UTF-8 sequence: 0x80 to 0xBF. -/
def contByte (b : Nat) : Bool := 128 ≤ b && b < 192

/-- Allowed second byte of a three-byte UTF-8 sequence, given the first byte
(excludes overlong forms and surrogates, as Rust's `str::from_utf8` does). -/
def utf8Cont3 (b b2 : Nat) : Bool :=
  if b = 224 then 160 ≤ b2 && b2 < 192
  else if b = 237 then 128 ≤ b2 && b2 < 160
  else contByte b2

/-- Allowed second byte of a four-byte UTF-8 sequence, given the first byte
(excludes overlong forms and values beyond U+10FFFF). -/
def utf8Cont4 (b b2 : Nat) : Bool :=
  if b = 240 then 144 ≤ b2 && b2 < 192
  else if b = 244 then 128 ≤ b2 && b2 < 144
  else contByte b2

/-- Model of `std::str::from_utf8`: strict UTF-8 decoding of a byte list,
`none` on any ill-formed sequence. -/
def utf8Decode : List Nat → Option (List Char)
  | [] => some []
  | b :: rest =>
    if b < 128 then (utf8Decode rest).map (fun cs => Char.ofNat b :: cs)
    else if b < 194 then none
    else if b < 224 then
      match rest with
      | b2 :: rest2 =>
        if contByte b2 then
          (utf8Decode rest2).map
            (fun cs => Char.ofNat ((b - 192) * 64 + (b2 - 128)) :: cs)
        else none
      | [] => none
    else if b < 240 then
      match rest with
      | b2 :: b3 :: rest3 =>
        if utf8Cont3 b b2 && contByte b3 then
          (utf8Decode rest3).map
            (fun cs =>
              Char.ofNat ((b - 224) * 4096 + (b2 - 128) * 64 + (b3 - 128)) :: cs)
        else none
      | _ => none
    else if b < 245 then
      match rest with
      | b2 :: b3 :: b4 :: rest4 =>
        if utf8Cont4 b b2 && contByte b3 && contByte b4 then
          (utf8Decode rest4).map
            (fun cs =>
              Char.ofNat ((b - 240) * 262144 + (b2 - 128) * 4096 +
                (b3 - 128) * 64 + (b4 - 128)) :: cs)
        else none
      | _ => none
    else none

/-- A byte list is valid UTF-8 when strict decoding succeeds. -/
def validUtf8 (bs : List Nat) : Bool := (utf8Decode bs).isSome

/-- The replacement character U+FFFD. -/
def rChar : Char := Char.ofNat 65533

/-- Worker of the lossy UTF-8 decoder; the fuel is only an induction measure
(each step consumes at least one byte, so fuel equal to the list length never
runs out). -/
def utf8LossyGo : Nat → List Nat → List Char
  | 0, _ => []
  | _, [] => []
  | fuel + 1, b :: rest =>
    if b < 128 then Char.ofNat b :: utf8LossyGo fuel rest
    else if b < 194 then rChar :: utf8LossyGo fuel rest
    else if b < 224 then
      match rest with
      | b2 :: rest2 =>
        if contByte b2 then
          Char.ofNat ((b - 192) * 64 + (b2 - 128)) :: utf8LossyGo fuel rest2
        else rChar :: utf8LossyGo fuel rest
      | [] => [rChar]
    else if b < 240 then
      match rest with
      | b2 :: rest2 =>
        if utf8Cont3 b b2 then
          match rest2 with
          | b3 :: rest3 =>
            if contByte b3 then
              Char.ofNat ((b - 224) * 4096 + (b2 - 128) * 64 + (b3 - 128)) ::
                utf8LossyGo fuel rest3
            else rChar :: utf8LossyGo fuel rest2
          | [] => [rChar]
        else rChar :: utf8LossyGo fuel rest
      | [] => [rChar]
    else if b < 245 then
      match rest with
      | b2 :: rest2 =>
        if utf8Cont4 b b2 then
          match rest2 with
          | b3 :: rest3 =>
            if contByte b3 then
              match rest3 with
              | b4 :: rest4 =>
                if contByte b4 then
                  Char.ofNat ((b - 240) * 262144 + (b2 - 128) * 4096 +
                    (b3 - 128) * 64 + (b4 - 128)) :: utf8LossyGo fuel rest4
                else rChar :: utf8LossyGo fuel rest3
              | [] => [rChar]
            else rChar :: utf8LossyGo fuel rest2
          | [] => [rChar]
        else rChar :: utf8LossyGo fuel rest
      | [] => [rChar]
    else rChar :: utf8LossyGo fuel rest

/-- Model of `String::from_utf8_lossy`: each maximal subpart of an ill-formed
subsequence is replaced by one U+FFFD, per the WHATWG substitution Rust
implements (`Utf8Error::error_len` governs how many bytes are skipped). -/
def utf8Lossy (bs : List Nat) : List Char := utf8LossyGo bs.length bs

/-- String form of `String::from_utf8_lossy`. -/
def utf8LossyS (bs : List Nat) : String := String.mk (utf8Lossy bs)

/-- UTF-8 encoding of one character (the bytes Rust strings store). -/
def char_utf8 (c : Char) : List Nat :=
  let n := c.toNat
  if n < 128 then [n]
  else if n < 2048 then [192 + n / 64, 128 + n % 64]
  else if n < 65536 then [224 + n / 4096, 128 + n / 64 % 64, 128 + n % 64]
  else [240 + n / 262144, 128 + n / 4096 % 64, 128 + n / 64 % 64, 128 + n % 64]

/-- UTF-8 bytes of a string. -/
def str_utf8 (s : String) : List Nat := (s.data.map char_utf8).flatten

/-- Message body (`src/body.rs` lines 52-60): empty, text bytes or binary
bytes.  `Text` carries bytes, not a string, so it can hold invalid UTF-8. -/
inductive Body : Type where
  | empty : Body
  | text (bytes : List Nat) : Body
  | binary (bytes : List Nat) : Body
deriving Repr, DecidableEq

/-- Conversion `From<String> for Body` and `From<&str> for Body`: text. -/
def bodyFromString (s : String) : Body := .text (str_utf8 s)

/-- Conversion `From<Vec<u8>> for Body` and `From<&[u8]> for Body`: binary. -/
def bodyFromBytes (bs : List Nat) : Body := .binary bs

/-- Conversion `From<()> for Body`: empty. -/
def bodyFromUnit : Body := .empty

/-- Model of `AsRef<[u8]> for Body` (`src/body.rs` lines 127-136). -/
def bodyAsRef : Body → List Nat
  | .empty => []
  | .text bs => bs
  | .binary bs => bs

/-- Character of the standard base64 alphabet for a 6-bit value. -/
def b64Char (n : Nat) : Char :=
  if n < 26 then Char.ofNat (65 + n)
  else if n < 52 then Char.ofNat (97 + (n - 26))
  else if n < 62 then Char.ofNat (48 + (n - 52))
  else if n = 62 then '+'
  else '/'

/-- Value of a standard base64 alphabet character, `none` for anything else. -/
def b64Val (c : Char) : Option Nat :=
  let n := c.toNat
  if 65 ≤ n && n ≤ 90 then some (n - 65)
  else if 97 ≤ n && n ≤ 122 then some (n - 97 + 26)
  else if 48 ≤ n && n ≤ 57 then some (n - 48 + 52)
  else if n = 43 then some 62
  else if n = 47 then some 63
  else none

/-- Standard base64 encoding with padding, as `Base64Display::standard`
produces: three bytes become four characters, a final partial group is
padded with `=`. -/
def base64EncodeL : List Nat → List Char
  | [] => []
  | [a] => [b64Char (a / 4), b64Char (a % 4 * 16), '=', '=']
  | [a, b] => [b64Char (a / 4), b64Char (a % 4 * 16 + b / 16),
               b64Char (b % 16 * 4), '=']
  | a :: b :: c :: rest =>
    b64Char (a / 4) :: b64Char (a % 4 * 16 + b / 16) ::
    b64Char (b % 16 * 4 + c / 64) :: b64Char (c % 64) :: base64EncodeL rest

/-- Standard base64 decoding as `base64::decode` accepts it: four-character
groups over the standard alphabet, with `=` padding only in the final group;
any character outside the alphabet fails. -/
def base64DecodeL : List Char → Option (List Nat)
  | [] => some []
  | c1 :: c2 :: c3 :: c4 :: rest =>
    match b64Val c1, b64Val c2 with
    | some v1, some v2 =>
      if c3 = '=' then
        if c4 = '=' && rest.isEmpty then some [v1 * 4 + v2 / 16] else none
      else
        match b64Val c3 with
        | some v3 =>
          if c4 = '=' then
            if rest.isEmpty then some [v1 * 4 + v2 / 16, v2 % 16 * 16 + v3 / 4]
            else none
          else
            match b64Val c4 with
            | some v4 =>
              (base64DecodeL rest).map
                (fun bs => (v1 * 4 + v2 / 16) :: (v2 % 16 * 16 + v3 / 4) ::
                  (v3 % 4 * 64 + v4) :: bs)
            | none => none
        | none => none
    | _, _ => none
  | _ => none

/-- String form of the base64 encoder. -/
def base64Encode (bs : List Nat) : String := String.mk (base64EncodeL bs)

/-- String form of the base64 decoder. -/
def base64Decode (s : String) : Option (List Nat) := base64DecodeL s.data

/-- Model of `Serialize for Body` (`src/body.rs` lines 138-151): `Text` is
serialized as a JSON string after a strict UTF-8 check that fails with an
encode error on invalid bytes; `Binary` as the standard base64 string;
`Empty` as JSON null. -/
def serialize_body : Body → Except String Json
  | .text bs =>
    match utf8Decode bs with
    | some cs => .ok (.str (String.mk cs))
    | none => .error "invalid utf-8 sequence"
  | .binary bs => .ok (.str (base64Encode bs))
  | .empty => .ok .null

/-- Canonical HTTP request (`http::Request<Body>` with the extensions the
assembler attaches: the three parameter maps and the request context). -/
structure HttpRequest where
  method : String
  uri : String
  headers : List (String × String)
  query_string_parameters : List (String × String)
  path_parameters : List (String × String)
  stage_variables : List (String × String)
  request_context : RequestContext
  body : Body
deriving Repr, DecidableEq

/-- Host segment of the synthesized target (`src/request.rs` lines 218-222):
`headers.get(HOST).map(|val| val.to_str().unwrap_or_default()).unwrap_or_default()`. -/
def hostString (hs : List (String × String)) : String :=
  match getHeader hs "host" with
  | some v => (headerToStr v).getD ""
  | none => ""

/-- Model of `Method::from_bytes`, which `builder.method(..)` calls: a
nonempty sequence of HTTP token characters (the same tchar table as header
names), case preserved — known upper-case methods and extension tokens alike
satisfy exactly this. -/
def methodValid (s : String) : Bool :=
  s ≠ "" && s.data.all headerNameChar

/-- Characters the http crate accepts in the authority component of a URI
(registered name, userinfo, port: RFC 3986 unreserved and sub-delims plus
`:`, `@`, `[`, `]`, `%`). -/
def authorityChar (c : Char) : Bool :=
  (48 ≤ c.toNat && c.toNat ≤ 57) || (65 ≤ c.toNat && c.toNat ≤ 90) ||
  (97 ≤ c.toNat && c.toNat ≤ 122) ||
  c = '-' || c = '.' || c = '_' || c = '~' || c = '!' || c = '$' ||
  c = '&' || c = '\x27' || c = '(' || c = ')' || c = '*' || c = '+' ||
  c = ',' || c = ';' || c = '=' || c = ':' || c = '@' || c = '[' ||
  c = ']' || c = '%'

/-- Characters accepted after the authority (path and query). -/
def uriPathChar (c : Char) : Bool :=
  authorityChar c || c = '/' || c = '?'

/-- Model of the `http::Uri` parse of what follows `https://` in the string
the assembler synthesizes: the authority runs to the first `/` or `?` and
must be nonempty (the crate rejects an empty authority such as in
`https:///foo`) with valid authority characters; the remainder must be valid
path/query characters.  The crate's additional overall-length cap (a URI
must fit in under two to the sixteenth bytes) is not modelled; no claim
depends on it. -/
def uriTailValid (rest : List Char) : Bool :=
  let auth := rest.takeWhile (fun c => c ≠ '/' && c ≠ '?')
  let tail := rest.drop auth.length
  (!auth.isEmpty) && auth.all authorityChar && tail.all uriPathChar

/-- Model of the request assembler `From<GatewayRequest> for HttpRequest<Body>`
(`src/request.rs` lines 199-251): the method is used verbatim, the target is
`https://` followed by the host segment and the path, headers and the three
maps and the request context are carried over, and the body is materialized
from the optional body string per the base64 flag — on a base64 decode
failure `unwrap_or_default()` substitutes the empty byte vector.  The builder
records an error when the method fails `Method::from_bytes` or the
synthesized target fails the `http::Uri` parse, and the final
`.expect("failed to build request")` (line 244) turns that deferred error
into a panic, modelled here as `Except.error`. -/
def from_gateway_request (g : GatewayRequest) : Except String HttpRequest :=
  if methodValid g.http_method = false then .error "failed to build request"
  else if uriTailValid ((hostString g.headers ++ g.path).data) = false then
    .error "failed to build request"
  else .ok
    { method := g.http_method
    , uri := "https://" ++ hostString g.headers ++ g.path
    , headers := g.headers
    , query_string_parameters := g.query_string_parameters
    , path_parameters := g.path_parameters
    , stage_variables := g.stage_variables
    , request_context := g.request_context
    , body :=
        match g.body with
        | some b =>
          if g.is_base64_encoded then bodyFromBytes ((base64Decode b).getD [])
          else bodyFromString b
        | none => bodyFromUnit }

/-- Payload deserialization errors (`src/ext.rs` lines 30-38). -/
inductive PayloadError : Type where
  | json (msg : String) : PayloadError
  | wwwFormUrlEncoded (msg : String) : PayloadError
deriving Repr, DecidableEq

/-- Model of `RequestExt::payload` (`src/ext.rs` lines 139-157), parametric in
the serde decoders for the target type: the content-type header is looked up,
converted with `to_str`, and compared literally against the two supported
content types; every other case — no header, `to_str` failure, or any other
string — yields `Ok(None)`. -/
def payload {α : Type} (jsonDec formDec : List Nat → Except String α)
    (req : HttpRequest) : Except PayloadError (Option α) :=
  match getHeader req.headers "content-type" with
  | none => .ok none
  | some ct =>
    match headerToStr ct with
    | none => .ok none
    | some s =>
      if s = "application/x-www-form-urlencoded" then
        match formDec (bodyAsRef req.body) with
        | .ok v => .ok (some v)
        | .error e => .error (.wwwFormUrlEncoded e)
      else if s = "application/json" then
        match jsonDec (bodyAsRef req.body) with
        | .ok v => .ok (some v)
        | .error e => .error (.json e)
      else .ok none

/-- Canonical HTTP response (`http::Response<T>` with `T: Into<Body>`, already
converted to `Body`). -/
structure HttpResponse where
  status : Nat
  headers : List (String × String)
  body : Body
deriving Repr, DecidableEq

/-- Wire reply shape (`GatewayResponse`, `src/response.rs` lines 9-19). -/
structure GatewayResponse where
  status_code : Nat
  headers : List (String × String)
  body : Option String
  is_base64_encoded : Bool
deriving Repr, DecidableEq

/-- Default `GatewayResponse` (`src/response.rs` lines 21-31 and 44-50):
status 200, no headers, no body, flag false. -/
def defaultGatewayResponse : GatewayResponse :=
  { status_code := 200, headers := [], body := none, is_base64_encoded := false }

/-- Header flattening of the response encoder (`src/ext.rs` lines 167-176):
each header pair goes through `to_str().unwrap_or_default()` and is collected
into a `HashMap`, so a repeated name keeps the last occurrence. -/
def collectResponseHeaders (hs : List (String × String)) :
    List (String × String) :=
  hs.foldl (fun m p => mapInsert m p.1 ((headerToStr p.2).getD "")) []

/-- Model of the response encoder `From<HttpResponse<T>> for GatewayResponse`
(`src/ext.rs` lines 162-188): the status is copied, headers are flattened
last-wins, a non-empty body is lossily decoded to a UTF-8 string
(`String::from_utf8_lossy`), and the base64 flag is always the default
`false`. -/
def from_http_response (r : HttpResponse) : GatewayResponse :=
  { status_code := r.status
  , headers := collectResponseHeaders r.headers
  , body :=
      match r.body with
      | .empty => none
      | .text bs => some (utf8LossyS bs)
      | .binary bs => some (utf8LossyS bs)
  , is_base64_encoded := false }

/-- Lowercase hexadecimal digit, for serde_json's control-character escapes. -/
def hexDigit (n : Nat) : String :=
  if n < 10 then String.singleton (Char.ofNat (48 + n))
  else String.singleton (Char.ofNat (97 + (n - 10)))

/-- Escape of one character inside a JSON string, as serde_json emits it. -/
def jsonEscapeChar (c : Char) : String :=
  if c = '"' then "\\\""
  else if c = '\\' then "\\\\"
  else if c.toNat < 32 then
    if c.toNat = 8 then "\\b"
    else if c.toNat = 9 then "\\t"
    else if c.toNat = 10 then "\\n"
    else if c.toNat = 12 then "\\f"
    else if c.toNat = 13 then "\\r"
    else "\\u00" ++ hexDigit (c.toNat / 16) ++ hexDigit (c.toNat % 16)
  else String.singleton c

/-- JSON string literal for `s`, quotes included. -/
def jsonString (s : String) : String :=
  "\"" ++ String.join (s.data.map jsonEscapeChar) ++ "\""

/-- JSON object text for the flattened header map. -/
def renderHeadersObj (hs : List (String × String)) : String :=
  "\x7b" ++
    String.intercalate "," (hs.map (fun p => jsonString p.1 ++ ":" ++ jsonString p.2)) ++
  "\x7d"

/-- Serialized fields of a `GatewayResponse`, in declaration order, applying
the `skip_serializing_if` attributes of `src/response.rs` lines 9-19:
`statusCode` always, `headers` unless the map is empty, `body` unless absent,
`isBase64Encoded` unless false. -/
def gateway_response_fields (r : GatewayResponse) : List (String × String) :=
  [("statusCode", toString r.status_code)] ++
  (if r.headers.isEmpty then [] else [("headers", renderHeadersObj r.headers)]) ++
  (match r.body with
   | some b => [("body", jsonString b)]
   | none => []) ++
  (if r.is_base64_encoded then [("isBase64Encoded", "true")] else [])

/-- Model of `serde_json::to_string` for `GatewayResponse`. -/
def serialize_gateway_response (r : GatewayResponse) : String :=
  "\x7b" ++
    String.intercalate ","
      ((gateway_response_fields r).map (fun p => jsonString p.1 ++ ":" ++ p.2)) ++
  "\x7d"

/-- Modelled from the spec: the media-type token of a content-type header —
the part before any `;`-separated parameters, with surrounding blanks
stripped, compared case-insensitively (lowercased).  This definition follows
the spec's words (used to state claims about content-type matching), not the
code. -/
def specMediaType (ct : String) : String :=
  String.mk
    (((((ct.data.takeWhile (fun c => c ≠ ';')).dropWhile
        (fun c => c = ' ' || c = '\t')).reverse.dropWhile
        (fun c => c = ' ' || c = '\t')).reverse).map asciiLower)

/-- Validity of one JSON headers-object entry: the key parses as a header
name and the value is a string that passes header-value validation. -/
def headerEntryValid (p : String × Json) : Bool :=
  match p.2 with
  | .str s => (headerNameParse p.1).isSome && headerValueValid s
  | _ => false

/-- Whether a JSON value is a string. -/
def isJsonStr : Json → Bool
  | .str _ => true
  | _ => false

/-- String content of a JSON string value (empty for other values). -/
def jsonStrContent : Json → String
  | .str s => s
  | _ => ""

/-- RequestContext of the sample envelope. -/
def rcJson : Json := Json.obj
  [("accountId", .str "123456789012"), ("resourceId", .str "us4z18"),
   ("stage", .str "test"), ("requestId", .str "41b45ea3"),
   ("resourcePath", .str "/foo"), ("httpMethod", .str "GET"),
   ("apiId", .str "wt6mne2s9k"),
   ("identity", Json.obj [("sourceIp", .str "192.168.100.1")])]

/-- Decoded form of `rcJson`. -/
def rcVal : RequestContext :=
  ⟨"123456789012", "us4z18", "test", "41b45ea3", "/foo", "GET", "wt6mne2s9k",
   ⟨"192.168.100.1", none, none, none, none, none, none, none, none, none, none⟩⟩

/-- A complete sample gateway event: `Host: example.org`, path `/foo`, the
three parameter maps null, no body. -/
def envFull : Json := Json.obj
  [("path", .str "/foo"), ("httpMethod", .str "GET"),
   ("headers", Json.obj [("Host", .str "example.org")]),
   ("queryStringParameters", .null), ("pathParameters", .null),
   ("stageVariables", .null), ("requestContext", rcJson)]

/-- Decoded form of `envFull` (header name lowercased by `HeaderName` parsing). -/
def gFull : GatewayRequest :=
  ⟨"/foo", "GET", [("host", "example.org")], [], [], [], none, false, rcVal⟩

/-- The sample event with the `queryStringParameters` field absent. -/
def envNoQuery : Json := Json.obj
  [("path", .str "/foo"), ("httpMethod", .str "GET"),
   ("headers", Json.obj [("Host", .str "example.org")]),
   ("pathParameters", .null),
   ("stageVariables", .null), ("requestContext", rcJson)]

/-- The sample event with a body that is not valid base64 and the base64 flag
set. -/
def envBadBase64 : Json := Json.obj
  [("path", .str "/foo"), ("httpMethod", .str "GET"),
   ("headers", Json.obj [("Host", .str "example.org")]),
   ("queryStringParameters", .null), ("pathParameters", .null),
   ("stageVariables", .null), ("body", .str "!!!"),
   ("isBase64Encoded", .bool true), ("requestContext", rcJson)]

/-- A decoded envelope with no Host header. -/
def gNoHost : GatewayRequest :=
  ⟨"/foo", "GET", [], [], [], [], none, false, emptyRequestContext⟩

/-- The canonical request the assembler builds from `gFull`. -/
def gFullRequest : HttpRequest :=
  ⟨"GET", "https://example.org/foo", [("host", "example.org")],
   [], [], [], rcVal, Body.empty⟩

/-- Inversion of a successful `Except` bind. -/
theorem except_bind_ok_elim {ε α β : Type} {a : Except ε α}
    {f : α → Except ε β} {b : β} (h : a >>= f = .ok b) :
    ∃ x, a = .ok x ∧ f x = .ok b := by
  cases a with
  | ok x => exact ⟨x, rfl, h⟩
  | error e => exact absurd h (by simp [Bind.bind, Except.bind])

/-- Inversion of `headerToStr`: on success it returns its input. -/
theorem headerToStr_eq {s t : String} (h : headerToStr s = some t) : t = s := by
  unfold headerToStr at h
  split at h
  · exact (Option.some_inj.mp h).symm
  · exact absurd h (by simp)

/-- The headers visitor loop succeeds exactly when every entry is valid. -/
theorem headersFold_isOk (fields : List (String × Json)) :
    ∀ acc, (headersFold fields acc).isOk = true ↔
      ∀ p ∈ fields, headerEntryValid p = true := by
  induction fields with
  | nil => intro acc; simp [headersFold, Except.isOk, Except.toBool]
  | cons p rest ih =>
    intro acc
    obtain ⟨k, v⟩ := p
    cases v with
    | str s =>
      cases hn : headerNameParse k with
      | some name =>
        by_cases hv : headerValueValid s = true
        · simp [headersFold, hn, hv, ih, headerEntryValid]
        · simp [headersFold, hn, hv, headerEntryValid, Except.isOk, Except.toBool]
      | none =>
        simp [headersFold, hn, headerEntryValid, Except.isOk, Except.toBool]
    | null => simp [headersFold, headerEntryValid, Except.isOk, Except.toBool]
    | bool b => simp [headersFold, headerEntryValid, Except.isOk, Except.toBool]
    | num n => simp [headersFold, headerEntryValid, Except.isOk, Except.toBool]
    | arr es => simp [headersFold, headerEntryValid, Except.isOk, Except.toBool]
    | obj fs => simp [headersFold, headerEntryValid, Except.isOk, Except.toBool]

/-- Anything already accumulated by the headers visitor loop survives into the
final header collection. -/
theorem headersFold_acc_sub (fields : List (String × Json)) :
    ∀ acc hm, headersFold fields acc = .ok hm → ∀ x ∈ acc, x ∈ hm := by
  induction fields with
  | nil =>
    intro acc hm h x hx
    cases h
    exact hx
  | cons p rest ih =>
    intro acc hm h x hx
    obtain ⟨k, v⟩ := p
    cases v with
    | str s =>
      cases hn : headerNameParse k with
      | some name =>
        by_cases hv : headerValueValid s = true
        · rw [headersFold, hn] at h
          simp only [hv, if_true] at h
          exact ih _ _ h x (List.mem_append_left _ hx)
        · rw [headersFold, hn] at h
          simp [hv] at h
      | none => rw [headersFold, hn] at h; cases h
    | null => simp [headersFold] at h
    | bool b => simp [headersFold] at h
    | num n => simp [headersFold] at h
    | arr es => simp [headersFold] at h
    | obj fs => simp [headersFold] at h

/-- Every string-valued entry of the headers object lands, with its name
lowercased, in the decoded header collection. -/
theorem headersFold_mem (fields : List (String × Json)) :
    ∀ acc hm, headersFold fields acc = .ok hm →
      ∀ k s, (k, Json.str s) ∈ fields → (lowerAscii k, s) ∈ hm := by
  induction fields with
  | nil => intro acc hm h k s hx; simp at hx
  | cons p rest ih =>
    intro acc hm h k s hx
    obtain ⟨k0, v0⟩ := p
    rcases List.mem_cons.mp hx with heq | htail
    · obtain ⟨hk, hv⟩ := Prod.mk.injEq .. ▸ heq
      subst hk
      cases v0 with
      | str s0 =>
        cases hv
        cases hn : headerNameParse k with
        | some name =>
          by_cases hval : headerValueValid s = true
          · rw [headersFold, hn] at h
            simp only [hval, if_true] at h
            have hname : name = lowerAscii k := by
              unfold headerNameParse at hn
              split at hn
              · exact (Option.some_inj.mp hn).symm
              · exact absurd hn (by simp)
            subst hname
            exact headersFold_acc_sub rest _ _ h _
              (List.mem_append_right _ (by simp))
          · rw [headersFold, hn] at h; simp [hval] at h
        | none => rw [headersFold, hn] at h; cases h
      | null => cases hv
      | bool b => cases hv
      | num n => cases hv
      | arr es => cases hv
      | obj fs => cases hv
    · cases v0 with
      | str s0 =>
        cases hn : headerNameParse k0 with
        | some name =>
          by_cases hval : headerValueValid s0 = true
          · rw [headersFold, hn] at h
            simp only [hval, if_true] at h
            exact ih _ _ h k s htail
          · rw [headersFold, hn] at h; simp [hval] at h
        | none => rw [headersFold, hn] at h; cases h
      | null => exact Except.noConfusion h
      | bool b => exact Except.noConfusion h
      | num n => exact Except.noConfusion h
      | arr es => exact Except.noConfusion h
      | obj fs => exact Except.noConfusion h

/-- Inserting a key nobody in the map holds is an append. -/
theorem mapInsert_fresh (m : List (String × String)) (k v : String)
    (h : ∀ p ∈ m, p.1 ≠ k) : mapInsert m k v = m ++ [(k, v)] := by
  unfold mapInsert
  rw [List.filter_eq_self.mpr]
  intro p hp
  simpa using h p hp

/-- The StrMap visitor loop, on an object whose keys are fresh for the
accumulator, all distinct, and whose values are all strings, appends exactly
the object's entries. -/
theorem strMapFold_eq (fields : List (String × Json)) :
    ∀ acc, (∀ p ∈ fields, isJsonStr p.2 = true) →
      (fields.map Prod.fst).Nodup →
      (∀ p ∈ acc, p.1 ∉ fields.map Prod.fst) →
      strMapFold fields acc =
        .ok (acc ++ fields.map (fun p => (p.1, jsonStrContent p.2))) := by
  induction fields with
  | nil => intro acc _ _ _; simp [strMapFold]
  | cons p rest ih =>
    intro acc hstr hnodup hfresh
    obtain ⟨k0, v0⟩ := p
    cases v0 with
    | str s0 =>
      rw [show List.map Prod.fst ((k0, Json.str s0) :: rest) =
        k0 :: List.map Prod.fst rest from rfl, List.nodup_cons] at hnodup
      rw [strMapFold]
      rw [mapInsert_fresh acc k0 s0
        (fun q hq => by
          have := hfresh q hq
          simp at this
          exact fun hk => this.1 hk)]
      rw [ih (acc ++ [(k0, s0)])
        (fun q hq => hstr q (List.mem_cons_of_mem _ hq))
        hnodup.2 ?_]
      · simp [jsonStrContent]
      · intro q hq
        rcases List.mem_append.mp hq with hqa | hqk
        · have := hfresh q hqa
          simp at this
          simpa using this.2
        · simp at hqk
          subst hqk
          exact hnodup.1
    | null => exact absurd (hstr _ (List.mem_cons_self _ _)) (by simp [isJsonStr])
    | bool b => exact absurd (hstr _ (List.mem_cons_self _ _)) (by simp [isJsonStr])
    | num n => exact absurd (hstr _ (List.mem_cons_self _ _)) (by simp [isJsonStr])
    | arr es => exact absurd (hstr _ (List.mem_cons_self _ _)) (by simp [isJsonStr])
    | obj fs => exact absurd (hstr _ (List.mem_cons_self _ _)) (by simp [isJsonStr])

/-- The base64 alphabet map inverts the base64 character map below 64. -/
theorem b64Val_b64Char : ∀ n, n < 64 → b64Val (b64Char n) = some n := by decide

/-- No base64 alphabet character is the padding character. -/
theorem b64Char_ne_pad : ∀ n, n < 64 → b64Char n ≠ '=' := by decide

/-- Standard base64 decoding inverts standard base64 encoding on any byte
list. -/
theorem base64_roundtrip_l :
    ∀ l : List Nat, (∀ x ∈ l, x < 256) →
      base64DecodeL (base64EncodeL l) = some l := by
  intro l
  induction l using base64EncodeL.induct with
  | case1 => intro _; rfl
  | case2 a =>
    intro hlt
    have ha : a < 256 := hlt a (by simp)
    have h1 : a / 4 < 64 := by omega
    have h2 : a % 4 * 16 < 64 := by omega
    simp only [base64EncodeL, base64DecodeL, b64Val_b64Char _ h1,
      b64Val_b64Char _ h2]
    simp
    omega
  | case3 a b =>
    intro hlt
    have ha : a < 256 := hlt a (by simp)
    have hb : b < 256 := hlt b (by simp)
    have h1 : a / 4 < 64 := by omega
    have h2 : a % 4 * 16 + b / 16 < 64 := by omega
    have h3 : b % 16 * 4 < 64 := by omega
    simp only [base64EncodeL, base64DecodeL, b64Val_b64Char _ h1,
      b64Val_b64Char _ h2]
    rw [if_neg (b64Char_ne_pad _ h3)]
    simp only [b64Val_b64Char _ h3]
    simp
    omega
  | case4 a b c rest ih =>
    intro hlt
    have ha : a < 256 := hlt a (by simp)
    have hb : b < 256 := hlt b (by simp)
    have hc : c < 256 := hlt c (by simp)
    have h1 : a / 4 < 64 := by omega
    have h2 : a % 4 * 16 + b / 16 < 64 := by omega
    have h3 : b % 16 * 4 + c / 64 < 64 := by omega
    have h4 : c % 64 < 64 := by omega
    have ihr := ih (fun x hx => hlt x (by simp [hx]))
    simp only [base64EncodeL, base64DecodeL, b64Val_b64Char _ h1,
      b64Val_b64Char _ h2]
    rw [if_neg (b64Char_ne_pad _ h3)]
    simp only [b64Val_b64Char _ h3]
    rw [if_neg (b64Char_ne_pad _ h4)]
    simp only [b64Val_b64Char _ h4, ihr, Option.map_some]
    simp
    refine ⟨by omega, by omega, by omega⟩

/-- Payload with no content-type header is `Ok(None)`. -/
theorem payload_no_content_type {α : Type}
    (jd fd : List Nat → Except String α) (req : HttpRequest)
    (h : getHeader req.headers "content-type" = none) :
    payload jd fd req = .ok none := by
  unfold payload
  rw [h]

/-- Payload with a content-type other than the two exact recognized strings is
`Ok(None)`. -/
theorem payload_other_content_type {α : Type}
    (jd fd : List Nat → Except String α) (req : HttpRequest) (ct : String)
    (h : getHeader req.headers "content-type" = some ct)
    (hj : ct ≠ "application/json")
    (hf : ct ≠ "application/x-www-form-urlencoded") :
    payload jd fd req = .ok none := by
  cases hs : headerToStr ct with
  | none => simp only [payload, h, hs]
  | some s =>
    have hse : s = ct := headerToStr_eq hs
    subst hse
    simp only [payload, h, hs]
    rw [if_neg hf, if_neg hj]

/-- Payload with the exact content-type `application/json` runs the JSON
decoder on the body bytes. -/
theorem payload_json_content_type {α : Type}
    (jd fd : List Nat → Except String α) (req : HttpRequest)
    (h : getHeader req.headers "content-type" = some "application/json") :
    payload jd fd req =
      match jd (bodyAsRef req.body) with
      | .ok v => .ok (some v)
      | .error e => .error (.json e) := by
  unfold payload
  rw [h]
  rfl

/-- Payload with the exact content-type `application/x-www-form-urlencoded`
runs the form decoder on the body bytes. -/
theorem payload_form_content_type {α : Type}
    (jd fd : List Nat → Except String α) (req : HttpRequest)
    (h : getHeader req.headers "content-type" =
      some "application/x-www-form-urlencoded") :
    payload jd fd req =
      match fd (bodyAsRef req.body) with
      | .ok v => .ok (some v)
      | .error e => .error (.wwwFormUrlEncoded e) := by
  unfold payload
  rw [h]
  rfl

/-- Inversion of a successful envelope decode: the headers field was present
and decoded to the request's header collection, and each of the three
parameter-map fields went through `nullable_default` to its map. -/
theorem decodeGatewayRequest_inv (j : Json) (g : GatewayRequest)
    (h : decodeGatewayRequest j = .ok g) :
    (∃ hj, jsonLookup j "headers" = some hj ∧
      deserialize_headers hj = .ok g.headers) ∧
    nullable_default (jsonLookup j "queryStringParameters")
      "queryStringParameters" = .ok g.query_string_parameters ∧
    nullable_default (jsonLookup j "pathParameters") "pathParameters" =
      .ok g.path_parameters ∧
    nullable_default (jsonLookup j "stageVariables") "stageVariables" =
      .ok g.stage_variables := by
  cases j with
  | obj fields =>
    rw [decodeGatewayRequest] at h
    obtain ⟨path, hpath, h⟩ := except_bind_ok_elim h
    obtain ⟨method, hmethod, h⟩ := except_bind_ok_elim h
    obtain ⟨headers, hheaders, h⟩ := except_bind_ok_elim h
    obtain ⟨qs, hqs, h⟩ := except_bind_ok_elim h
    obtain ⟨pp, hpp, h⟩ := except_bind_ok_elim h
    obtain ⟨sv, hsv, h⟩ := except_bind_ok_elim h
    obtain ⟨body, hbody, h⟩ := except_bind_ok_elim h
    obtain ⟨b64, hb64, h⟩ := except_bind_ok_elim h
    obtain ⟨rc, hrc, h⟩ := except_bind_ok_elim h
    cases h
    refine ⟨?_, hqs, hpp, hsv⟩
    cases hl : jsonLookup (Json.obj fields) "headers" with
    | some hj =>
      simp only [getHeadersField, hl] at hheaders
      exact ⟨hj, rfl, hheaders⟩
    | none =>
      simp only [getHeadersField, hl] at hheaders
      exact Except.noConfusion hheaders
  | null => exact Except.noConfusion h
  | bool b => exact Except.noConfusion h
  | num n => exact Except.noConfusion h
  | str s => exact Except.noConfusion h
  | arr es => exact Except.noConfusion h

/-- C1: the claim states that a malformed base64 body with the base64 flag set
makes request assembly fail with a fatal decode error, never silently becoming
an empty body.  The code instead substitutes an empty byte vector
(`unwrap_or_default()`, `src/request.rs` line 237): the event `envBadBase64`
carries the non-base64 body `"!!!"` with the flag set, decodes successfully,
and — the method and target being valid, so the builder does not panic —
assembles to an empty `Binary` body with no error surfaced anywhere. -/
theorem c1_base64_failure_not_fatal :
    base64Decode "!!!" = none ∧
    ((decodeGatewayRequest envBadBase64).bind
      (fun g => from_gateway_request g)).map (fun req => req.body) =
      .ok (Body.binary []) :=
  ⟨rfl, rfl⟩

/-- C2 counterexample: the claim says a content-type whose media type is
`application/json` with parameters is decoded as JSON.  On a request with
content-type `application/json; charset=utf-8` (whose media-type token is
`application/json`) and a JSON decoder that always succeeds, `payload`
returns `Ok(None)` instead of running the decoder: the match in
`src/ext.rs` lines 145-155 compares the whole header value literally. -/
theorem c2_counterexample :
    payload (fun _ => Except.ok (1 : Nat)) (fun _ => Except.ok 2)
      ⟨"POST", "https://example.org/foo",
        [("content-type", "application/json; charset=utf-8")],
        [], [], [], emptyRequestContext, Body.text (str_utf8 "\x7b\x7d")⟩ =
      .ok none ∧
    specMediaType "application/json; charset=utf-8" = "application/json" :=
  ⟨rfl, rfl⟩

/-- C2 amended: `payload` matches the content-type header by exact,
case-sensitive equality of the entire header value against
`application/json` and `application/x-www-form-urlencoded`; any other value
— different letter case or attached parameters included — yields `Ok(None)`. -/
theorem c2_payload_content_type_exact_match {α : Type}
    (jd fd : List Nat → Except String α) (req : HttpRequest) (ct : String)
    (h : getHeader req.headers "content-type" = some ct) :
    (ct = "application/json" →
      payload jd fd req =
        match jd (bodyAsRef req.body) with
        | .ok v => .ok (some v)
        | .error e => .error (.json e)) ∧
    (ct = "application/x-www-form-urlencoded" →
      payload jd fd req =
        match fd (bodyAsRef req.body) with
        | .ok v => .ok (some v)
        | .error e => .error (.wwwFormUrlEncoded e)) ∧
    (ct ≠ "application/json" → ct ≠ "application/x-www-form-urlencoded" →
      payload jd fd req = .ok none) := by
  refine ⟨fun hj => ?_, fun hf => ?_,
    fun hj hf => payload_other_content_type jd fd req ct h hj hf⟩
  · subst hj
    exact payload_json_content_type jd fd req h
  · subst hf
    exact payload_form_content_type jd fd req h

/-- Witness for the amended C2 theorem at a concrete request. -/
theorem c2_payload_content_type_exact_match_witness :
    payload (fun _ => Except.ok (1 : Nat)) (fun _ => Except.ok 2)
      ⟨"POST", "https://example.org/foo",
        [("content-type", "application/json")],
        [], [], [], emptyRequestContext, Body.text (str_utf8 "\x7b\x7d")⟩ =
      .ok (some 1) :=
  (c2_payload_content_type_exact_match (fun _ => Except.ok (1 : Nat))
    (fun _ => Except.ok 2)
    ⟨"POST", "https://example.org/foo",
      [("content-type", "application/json")],
      [], [], [], emptyRequestContext, Body.text (str_utf8 "\x7b\x7d")⟩
    "application/json" rfl).1 rfl

/-- C3 counterexample: the claim says encoding a response whose `Text` body is
not valid UTF-8 surfaces a fatal encode error and never replaces bytes.  The
response encoder (`src/ext.rs` lines 178-187) is total: on the invalid byte
255 it produces a reply whose body is the replacement character, with no
error channel at all. -/
theorem c3_counterexample :
    from_http_response ⟨200, [], Body.text [255]⟩ =
      { status_code := 200, headers := [], body := some "�",
        is_base64_encoded := false } :=
  rfl

/-- C3 amended: the response encoder lossily decodes a non-UTF-8 `Text` body
with `String::from_utf8_lossy`, replacing invalid sequences and never
erroring; only `Body`'s own serializer (`src/body.rs` lines 138-151), which
the response path does not use, rejects invalid UTF-8 with an encode error. -/
theorem c3_text_body_lossy_encode (st : Nat) (hs : List (String × String))
    (bs : List Nat) (h : validUtf8 bs = false) :
    from_http_response ⟨st, hs, Body.text bs⟩ =
      { status_code := st, headers := collectResponseHeaders hs,
        body := some (utf8LossyS bs), is_base64_encoded := false } ∧
    serialize_body (Body.text bs) = .error "invalid utf-8 sequence" := by
  refine ⟨rfl, ?_⟩
  unfold validUtf8 at h
  have hser : serialize_body (Body.text bs) =
      match utf8Decode bs with
      | some cs => .ok (.str (String.mk cs))
      | none => .error "invalid utf-8 sequence" := rfl
  cases hu : utf8Decode bs with
  | some cs =>
    rw [hu] at h
    exact absurd h (by simp)
  | none =>
    rw [hser, hu]

/-- Witness for the amended C3 theorem at the concrete invalid byte 255. -/
theorem c3_text_body_lossy_encode_witness :
    from_http_response ⟨200, [], Body.text [255]⟩ =
      { status_code := 200, headers := collectResponseHeaders [],
        body := some (utf8LossyS [255]), is_base64_encoded := false } ∧
    serialize_body (Body.text [255]) = .error "invalid utf-8 sequence" :=
  c3_text_body_lossy_encode 200 [] [255] rfl

/-- C4: a request with no content-type header, or with any content-type whose
media type is neither `application/json` nor
`application/x-www-form-urlencoded`, makes `payload` return `Ok(None)`
whatever the body holds — never an error. -/
theorem c4_payload_unrecognized_content_type_ok_none {α : Type}
    (jd fd : List Nat → Except String α) (req : HttpRequest) :
    (getHeader req.headers "content-type" = none →
      payload jd fd req = .ok none) ∧
    (∀ ct, getHeader req.headers "content-type" = some ct →
      specMediaType ct ≠ "application/json" →
      specMediaType ct ≠ "application/x-www-form-urlencoded" →
      payload jd fd req = .ok none) := by
  refine ⟨payload_no_content_type jd fd req, ?_⟩
  intro ct h hj hf
  refine payload_other_content_type jd fd req ct h ?_ ?_
  · intro he
    subst he
    exact hj rfl
  · intro he
    subst he
    exact hf rfl

/-- Witness for C4: a request without content-type and one with `text/plain`,
both with a non-empty body, yield `Ok(None)`. -/
theorem c4_payload_unrecognized_content_type_ok_none_witness :
    payload (fun _ => Except.ok (1 : Nat)) (fun _ => Except.ok 2)
      ⟨"GET", "https://example.org/foo", [], [], [], [],
        emptyRequestContext, Body.text (str_utf8 "anything")⟩ = .ok none ∧
    payload (fun _ => Except.ok (1 : Nat)) (fun _ => Except.ok 2)
      ⟨"GET", "https://example.org/foo", [("content-type", "text/plain")],
        [], [], [], emptyRequestContext,
        Body.text (str_utf8 "anything")⟩ = .ok none :=
  ⟨(c4_payload_unrecognized_content_type_ok_none (fun _ => Except.ok (1 : Nat))
      (fun _ => Except.ok 2)
      ⟨"GET", "https://example.org/foo", [], [], [], [],
        emptyRequestContext, Body.text (str_utf8 "anything")⟩).1 rfl,
   (c4_payload_unrecognized_content_type_ok_none (fun _ => Except.ok (1 : Nat))
      (fun _ => Except.ok 2)
      ⟨"GET", "https://example.org/foo", [("content-type", "text/plain")],
        [], [], [], emptyRequestContext,
        Body.text (str_utf8 "anything")⟩).2 "text/plain" rfl
      (by decide) (by decide)⟩

/-- C5 counterexample: the claim says an absent parameter-map field yields an
empty StrMap.  The sample event `envNoQuery` — valid except that
`queryStringParameters` is absent — fails decoding with a missing-field
error, because the field carries `deserialize_with` without
`#[serde(default)]` (`src/request.rs` lines 32-37). -/
theorem c5_counterexample :
    decodeGatewayRequest envNoQuery =
      .error "missing field queryStringParameters" :=
  rfl

/-- C5 amended: for the three parameter maps, decoding a present JSON `null`
yields an empty StrMap and decoding an object with string values yields
exactly the object's entries, and this is what a successful envelope decode
stores in the request; an absent field, however, is a fatal missing-field
decode error, not an empty map. -/
theorem c5_strmap_null_object_decode :
    (∀ name, nullable_default (some Json.null) name = .ok []) ∧
    (∀ (fields : List (String × Json)) (name : String),
      (∀ p ∈ fields, isJsonStr p.2 = true) → (fields.map Prod.fst).Nodup →
      nullable_default (some (Json.obj fields)) name =
        .ok (fields.map (fun p => (p.1, jsonStrContent p.2)))) ∧
    (∀ j g, decodeGatewayRequest j = .ok g →
      nullable_default (jsonLookup j "queryStringParameters")
        "queryStringParameters" = .ok g.query_string_parameters ∧
      nullable_default (jsonLookup j "pathParameters") "pathParameters" =
        .ok g.path_parameters ∧
      nullable_default (jsonLookup j "stageVariables") "stageVariables" =
        .ok g.stage_variables) ∧
    (∀ j, jsonLookup j "queryStringParameters" = none →
      ∀ g, decodeGatewayRequest j ≠ .ok g) := by
  refine ⟨fun name => rfl, ?_, ?_, ?_⟩
  · intro fields name hstr hnodup
    show decodeStrMap (Json.obj fields) = _
    rw [decodeStrMap]
    rw [strMapFold_eq fields [] hstr hnodup (by simp)]
    simp
  · intro j g h
    exact (decodeGatewayRequest_inv j g h).2
  · intro j hnone g h
    have hq := ((decodeGatewayRequest_inv j g h).2).1
    rw [hnone] at hq
    exact Except.noConfusion hq

/-- Witness for the amended C5 theorem: a null field, a one-entry object
field, and the full sample event. -/
theorem c5_strmap_null_object_decode_witness :
    nullable_default (some Json.null) "queryStringParameters" = .ok [] ∧
    nullable_default (some (Json.obj [("foo", Json.str "bar")]))
      "stageVariables" = .ok [("foo", "bar")] ∧
    nullable_default (jsonLookup envFull "queryStringParameters")
      "queryStringParameters" = .ok gFull.query_string_parameters := by
  refine ⟨c5_strmap_null_object_decode.1 "queryStringParameters", ?_, ?_⟩
  · exact c5_strmap_null_object_decode.2.1 [("foo", Json.str "bar")]
      "stageVariables" (by simp [isJsonStr]) (by simp)
  · exact (c5_strmap_null_object_decode.2.2.1 envFull gFull rfl).1

/-- C6: serializing `Body::Binary(b)` produces the JSON string holding the
standard base64 encoding of `b`, and base64-decoding that string returns
exactly `b`. -/
theorem c6_binary_body_base64_roundtrip (bs : List Nat)
    (h : ∀ x ∈ bs, x < 256) :
    serialize_body (Body.binary bs) = .ok (Json.str (base64Encode bs)) ∧
    base64Decode (base64Encode bs) = some bs := by
  refine ⟨rfl, ?_⟩
  unfold base64Decode base64Encode
  exact base64_roundtrip_l bs h

/-- Witness for C6 at the bytes of `"bar"`. -/
theorem c6_binary_body_base64_roundtrip_witness :
    serialize_body (Body.binary [98, 97, 114]) =
      .ok (Json.str (base64Encode [98, 97, 114])) ∧
    base64Decode (base64Encode [98, 97, 114]) = some [98, 97, 114] :=
  c6_binary_body_base64_roundtrip [98, 97, 114] (by decide)

/-- C7: in the serialized wire reply the `headers` field appears exactly when
the header map is nonempty, `body` exactly when a body is present,
`isBase64Encoded` exactly when the flag is true (so each is omitted exactly
in the opposite case); a response body is absent exactly when the canonical
body was `Empty`; and the default response — status 200, no headers, no
body — serializes to exactly the status-only JSON object. -/
theorem c7_response_serialization_field_omission :
    serialize_gateway_response (from_http_response ⟨200, [], Body.empty⟩) =
      "\x7b\"statusCode\":200\x7d" ∧
    (∀ r : GatewayResponse,
      (("headers" ∈ (gateway_response_fields r).map Prod.fst) ↔
        r.headers ≠ []) ∧
      (("body" ∈ (gateway_response_fields r).map Prod.fst) ↔
        r.body ≠ none) ∧
      (("isBase64Encoded" ∈ (gateway_response_fields r).map Prod.fst) ↔
        r.is_base64_encoded = true)) ∧
    (∀ resp : HttpResponse,
      ((from_http_response resp).body = none ↔ resp.body = Body.empty)) := by
  refine ⟨rfl, ?_, ?_⟩
  · intro r
    obtain ⟨sc, hs, b, flag⟩ := r
    cases hs <;> cases b <;> cases flag <;>
      simp [gateway_response_fields]
  · intro resp
    obtain ⟨st, hs, b⟩ := resp
    cases b <;> simp [from_http_response]

/-- Successful assembly fixes the target to the synthesized
`https://{host}{path}` string. -/
theorem from_gateway_request_ok_uri (g : GatewayRequest) (req : HttpRequest)
    (h : from_gateway_request g = .ok req) :
    req.uri = "https://" ++ hostString g.headers ++ g.path := by
  unfold from_gateway_request at h
  split at h
  · exact Except.noConfusion h
  · split at h
    · exact Except.noConfusion h
    · cases h
      rfl

/-- With no Host header the host segment is empty. -/
theorem hostString_none {hs : List (String × String)}
    (h : getHeader hs "host" = none) : hostString hs = "" := by
  simp only [hostString, h]

/-- C8 counterexample: the claim says that with no Host header the host
segment is empty and assembly still succeeds.  On the decoded envelope
`gNoHost` (path `/foo`, no Host header) the assembler synthesizes
`https:///foo`, whose authority is empty; the http crate's URI parser
rejects it, the builder's deferred error reaches
`.expect("failed to build request")` (`src/request.rs` line 244), and the
program panics — assembly is an error, not a success. -/
theorem c8_counterexample :
    hostString gNoHost.headers = "" ∧
    from_gateway_request gNoHost = .error "failed to build request" :=
  ⟨rfl, rfl⟩

/-- C8 amended: whenever assembly succeeds, the target is
`https://{host}{path}` where the host segment is the Host header's value
(empty when the header is absent), and the lookup is case-insensitive
because header names are lowercased when the envelope's header object is
decoded; but when no Host header is present and the path begins with `/`
(the gateway's path shape), the synthesized target has an empty authority,
the URI parse fails, and assembly panics with
`failed to build request` instead of succeeding. -/
theorem c8_request_target_host :
    (∀ (g : GatewayRequest) (req : HttpRequest) (v : String),
      from_gateway_request g = .ok req →
      getHeader g.headers "host" = some v →
      v.data.all visibleAsciiChar = true →
      req.uri = "https://" ++ v ++ g.path) ∧
    (∀ (g : GatewayRequest) (req : HttpRequest),
      from_gateway_request g = .ok req →
      req.uri = "https://" ++ hostString g.headers ++ g.path) ∧
    (∀ g : GatewayRequest, getHeader g.headers "host" = none →
      g.path.data.head? = some '/' →
      from_gateway_request g = .error "failed to build request") ∧
    (∀ (k v : String) (fields : List (String × Json))
        (hm : List (String × String)),
      deserialize_headers (Json.obj fields) = .ok hm →
      (k, Json.str v) ∈ fields → lowerAscii k = "host" →
      (getHeader hm "host").isSome = true) := by
  refine ⟨?_, fun g req h => from_gateway_request_ok_uri g req h, ?_, ?_⟩
  · intro g req v hok hv hvis
    rw [from_gateway_request_ok_uri g req hok]
    simp only [hostString, hv]
    unfold headerToStr
    rw [if_pos hvis]
    rfl
  · intro g hv hpath
    unfold from_gateway_request
    split
    · rfl
    · rw [if_pos ?_]
      rw [hostString_none hv]
      have hnil : ("" ++ g.path).data = g.path.data := rfl
      rw [hnil]
      cases hd : g.path.data with
      | nil => rw [hd] at hpath; exact Option.noConfusion hpath
      | cons c tl =>
        rw [hd] at hpath
        have hc : c = '/' := Option.some_inj.mp hpath
        subst hc
        rfl
  · intro k v fields hm hdec hmem hlow
    have hx : (lowerAscii k, v) ∈ hm :=
      headersFold_mem fields [] hm hdec k v hmem
    rw [hlow] at hx
    simp only [getHeader]
    cases hf : hm.find? (fun p => p.1 = "host") with
    | some q => rfl
    | none =>
      have hne := List.find?_eq_none.mp hf ("host", v) hx
      simp at hne

/-- Witness for the amended C8 theorem: the spec's own example
(`Host: example.org`, path `/foo`) assembles successfully to the expected
target, the host-less envelope fails assembly, and a `Host`-spelled entry is
found under the lowercased name. -/
theorem c8_request_target_host_witness :
    gFullRequest.uri = "https://example.org/foo" ∧
    gFullRequest.uri = "https://" ++ hostString gFull.headers ++ gFull.path ∧
    from_gateway_request gNoHost = .error "failed to build request" ∧
    (getHeader [("host", "example.org")] "host").isSome = true := by
  refine ⟨?_, ?_, ?_, ?_⟩
  · exact c8_request_target_host.1 gFull gFullRequest "example.org" rfl rfl
      (by decide)
  · exact c8_request_target_host.2.1 gFull gFullRequest rfl
  · exact c8_request_target_host.2.2.1 gNoHost rfl rfl
  · exact c8_request_target_host.2.2.2 "Host" "example.org"
      [("Host", Json.str "example.org")] [("host", "example.org")] rfl
      (by simp) rfl

/-- C9: decoding the envelope's headers object fails exactly when some entry
has an invalid header-name token or an invalid header-value token (or is not
a string at all); on success every entry is inserted into the header
collection under its lowercased name; and a successful envelope decode
implies the headers object was present and decoded to the request's header
collection, so the failure is structural and fatal. -/
theorem c9_headers_decode_validity :
    (∀ fields : List (String × Json),
      ((deserialize_headers (Json.obj fields)).isOk = true ↔
        ∀ p ∈ fields, headerEntryValid p = true)) ∧
    (∀ fields hm, deserialize_headers (Json.obj fields) = .ok hm →
      ∀ k s, (k, Json.str s) ∈ fields → (lowerAscii k, s) ∈ hm) ∧
    (∀ j g, decodeGatewayRequest j = .ok g →
      ∃ hj, jsonLookup j "headers" = some hj ∧
        deserialize_headers hj = .ok g.headers) := by
  refine ⟨?_, ?_, ?_⟩
  · intro fields
    exact headersFold_isOk fields []
  · intro fields hm h k s hks
    exact headersFold_mem fields [] hm h k s hks
  · intro j g h
    exact (decodeGatewayRequest_inv j g h).1

/-- Witness for C9: a valid one-entry headers object decodes, its entry is
inserted lowercased, and the sample event's headers decode to the sample
request's collection. -/
theorem c9_headers_decode_validity_witness :
    (deserialize_headers
      (Json.obj [("Host", Json.str "example.org")])).isOk = true ∧
    ("host", "example.org") ∈ ([("host", "example.org")] :
      List (String × String)) ∧
    (∃ hj, jsonLookup envFull "headers" = some hj ∧
      deserialize_headers hj = .ok gFull.headers) := by
  refine ⟨?_, ?_, ?_⟩
  · exact (c9_headers_decode_validity.1 _).mpr (by decide)
  · exact c9_headers_decode_validity.2.1 [("Host", Json.str "example.org")]
      [("host", "example.org")] rfl "Host" "example.org" (by simp)
  · exact c9_headers_decode_validity.2.2 envFull gFull rfl

/-- C10: every reply produced by the response encoder — binary bodies
included — has the base64 flag false, so the `isBase64Encoded` field is
always omitted from the serialized output. -/
theorem c10_encoded_response_base64_flag_false (resp : HttpResponse) :
    (from_http_response resp).is_base64_encoded = false ∧
    "isBase64Encoded" ∉
      (gateway_response_fields (from_http_response resp)).map Prod.fst := by
  refine ⟨rfl, ?_⟩
  obtain ⟨st, hs, b⟩ := resp
  cases b <;> by_cases hh : (collectResponseHeaders hs).isEmpty = true <;>
    simp [from_http_response, gateway_response_fields, hh]
